import Mathlib

/-!
Verification development for the habit-tracker plugin (src/main.ts).

The plugin keeps two in-memory collections — habit definitions and
completion entries — inside a single settings object, and mutates them
directly from UI callbacks, saving the whole object after each mutation.
The definitions below are a shallow embedding of that behavioural core:

* data model (`Habit`, `HabitEntry`, `HabitTrackerSettings`) — main.ts lines 4-19;
* JavaScript string primitives used by the handlers (`jsTrim` for
  `String.prototype.trim`, `jsNatToString` for number-to-string coercion,
  `jsPadStart2` for `padStart(2, '0')`, `charListLtb`/`jsStrLtb`/`jsStrLeb`
  for the `<`/`<=`/`>=` string comparison operators);
* the mutation handlers (`addHabit`, `editHabit`, `deleteHabit`,
  `toggleEntry`) and the read/aggregate logic (`entriesOn`, `monthGrid`,
  `monthlyCount`), with the `new Date(...)` calendar queries embedded as
  explicit proleptic-Gregorian arithmetic (`daysInMonth`, `dayOfWeek`).

Mutating handlers return, next to the new settings value, the list of
settings snapshots passed to `saveSettings` during the handler, so that
"persists once" / "no save occurs" statements can be made precise.
-/

/-- Characters removed by JavaScript `String.prototype.trim`
(ECMA-262 WhiteSpace and LineTerminator code points; the common ones). -/
def jsWhitespace (c : Char) : Bool :=
  c == ' ' || c == '\t' || c == '\n' || c == '\r' ||
  c == Char.ofNat 11 || c == Char.ofNat 12 || c == Char.ofNat 160 || c == Char.ofNat 65279

/-- Embeds JavaScript `s.trim()` (used in main.ts lines 511-512, 555):
surrounding whitespace is removed from both ends. -/
def jsTrim (s : String) : String :=
  String.mk (((s.data.dropWhile jsWhitespace).reverse.dropWhile jsWhitespace).reverse)

/-- Fuel-based decimal rendering of a natural number, least significant digit
peeled off first (same recursion structure as the runtime's `Nat.toDigits`).
With fuel above the digit count it produces the usual decimal numeral. -/
def natToDigitsAux : Nat → Nat → List Char → List Char
  | 0, _, acc => acc
  | fuel + 1, n, acc =>
    let d := Nat.digitChar (n % 10)
    if n / 10 = 0 then d :: acc else natToDigitsAux fuel (n / 10) (d :: acc)

/-- Embeds the JavaScript number-to-string coercion for the non-negative
integers the plugin renders (`Date.now().toString()` at main.ts line 533,
and the template-literal interpolation of `year`, `month + 1`, `day` at
lines 202 and 319-321). -/
def jsNatToString (n : Nat) : String :=
  String.mk (natToDigitsAux (n + 1) n [])

/-- Embeds JavaScript `s.padStart(2, '0')` (main.ts lines 202, 319, 321). -/
def jsPadStart2 (s : String) : String :=
  if s.length < 2 then String.mk (List.replicate (2 - s.length) '0') ++ s else s

/-- Lexicographic comparison of character lists, as JavaScript compares
strings with `<` / `<=` / `>=` (code-unit order; all characters involved
here are ASCII, where code-unit order and code-point order agree). -/
def charListLtb : List Char → List Char → Bool
  | [], [] => false
  | [], _ :: _ => true
  | _ :: _, [] => false
  | a :: as, b :: bs => if a < b then true else if b < a then false else charListLtb as bs

/-- JavaScript string `a < b`. -/
def jsStrLtb (a b : String) : Bool := charListLtb a.data b.data

/-- JavaScript string `a <= b` (and, with arguments swapped, `a >= b`),
used for the month-range bounds at main.ts lines 333-334. -/
def jsStrLeb (a b : String) : Bool := !(jsStrLtb b a)

/-- Habit record (main.ts lines 4-9). -/
structure Habit where
  id : String
  name : String
  icon : String
  color : String
deriving DecidableEq, Repr

/-- Completion entry (main.ts lines 11-14); `date` is a `YYYY-MM-DD` string. -/
structure HabitEntry where
  habitId : String
  date : String
deriving DecidableEq, Repr

/-- The plugin's whole mutable state (main.ts lines 16-19): the two ordered
collections that every handler reads and writes. -/
structure HabitTrackerSettings where
  habits : List Habit
  entries : List HabitEntry
deriving DecidableEq, Repr

/-- Error signal surfaced to the user via a transient `Notice`
(main.ts lines 516, 521): the handler aborts without mutating or saving. -/
inductive StoreError where
  | validationError : StoreError
  | notFoundError : StoreError
deriving DecidableEq, Repr

/-- Entries whose `date` equals the given day
(`entries.filter(e => e.date === dateStr)`, main.ts lines 214 and 259). -/
def entriesOn (s : HabitTrackerSettings) (date : String) : List HabitEntry :=
  s.entries.filter (fun e => e.date == date)

/-- Embeds the checkbox `change` handler of `HabitPickerModal.onOpen`
(main.ts lines 273-288).  The checkbox is initialised from
`existingEntries.some(e => e.habitId === habit.id)` over the entries of
this date (lines 259, 265), so at event time `checkbox.checked` holds
exactly when no entry with this `(habitId, date)` pair was present:
then the handler pushes a new entry, otherwise it removes every entry
with the pair.  One save follows the mutation (line 286). -/
def toggleEntry (s : HabitTrackerSettings) (habitId date : String) :
    HabitTrackerSettings × List HabitTrackerSettings :=
  if s.entries.any (fun e => e.habitId == habitId && e.date == date) then
    let s' := { s with
      entries := s.entries.filter (fun e => !(e.habitId == habitId && e.date == date)) }
    (s', [s'])
  else
    let s' := { s with entries := s.entries ++ [⟨habitId, date⟩] }
    (s', [s'])

/-- Embeds the Save handler of `AddHabitModal.onOpen` in add mode
(`this.habit === null`, main.ts lines 509-545): trims name and icon,
aborts with a notice (and no save) when either is empty, otherwise appends
a habit whose id is `Date.now().toString()` — `now` is the clock reading —
and saves once.  The created habit is returned next to the new state. -/
def addHabit (s : HabitTrackerSettings) (name icon color : String) (now : Nat) :
    Except StoreError (HabitTrackerSettings × Habit) × List HabitTrackerSettings :=
  let name' := jsTrim name
  let icon' := jsTrim icon
  if name' = "" then (Except.error StoreError.validationError, [])
  else if icon' = "" then (Except.error StoreError.validationError, [])
  else
    let newHabit : Habit := { id := jsNatToString now, name := name', icon := icon', color := color }
    let s' := { s with habits := s.habits ++ [newHabit] }
    (Except.ok (s', newHabit), [s'])

/-- Embeds the Save handler of `AddHabitModal.onOpen` in edit mode
(main.ts lines 509-529): same validation, then the habit object held by
the modal — the one the settings tab rendered at `index` — has its
`name`, `icon`, `color` overwritten in place (id unchanged) and the
store is saved once. -/
def editHabit (s : HabitTrackerSettings) (index : Nat) (name icon color : String) :
    HabitTrackerSettings × List HabitTrackerSettings :=
  let name' := jsTrim name
  let icon' := jsTrim icon
  if name' = "" then (s, [])
  else if icon' = "" then (s, [])
  else
    match s.habits[index]? with
    | none => (s, [s])
    | some habit =>
      let s' := { s with
        habits := s.habits.set index { habit with name := name', icon := icon', color := color } }
      (s', [s'])

/-- Embeds the Delete button handler of `HabitTrackerSettingTab.display`
(main.ts lines 401-410): `habits.splice(index, 1)` removes the habit
rendered at `index`, then every entry whose `habitId` equals that habit's
id is filtered out, then the store is saved once.  The closure captures
both `index` and the habit object `habit` rendered there. -/
def deleteHabit (s : HabitTrackerSettings) (index : Nat) (habit : Habit) :
    HabitTrackerSettings × List HabitTrackerSettings :=
  let afterSplice := { s with habits := s.habits.eraseIdx index }
  let afterCascade := { afterSplice with
    entries := afterSplice.entries.filter (fun e => !(e.habitId == habit.id)) }
  (afterCascade, [afterCascade])

/-- Embeds the JavaScript leap-year rule underlying `new Date` month
arithmetic (proleptic Gregorian calendar). -/
def isLeapYear (year : Nat) : Bool :=
  (year % 4 == 0 && year % 100 != 0) || year % 400 == 0

/-- Embeds `new Date(year, month + 1, 0).getDate()` (main.ts lines 183-184,
320) for a 0-based `month` below 12: the number of days in the month. -/
def daysInMonth (year month : Nat) : Nat :=
  if month == 1 then (if isLeapYear year then 29 else 28)
  else if month == 3 || month == 5 || month == 8 || month == 10 then 30
  else 31

/-- Days in the proleptic-Gregorian years `1 .. year - 1`. -/
def daysBeforeYear (year : Nat) : Nat :=
  365 * (year - 1) + (year - 1) / 4 - (year - 1) / 100 + (year - 1) / 400

/-- Days in the months of `year` that precede 0-based `month`. -/
def daysBeforeMonth (year month : Nat) : Nat :=
  (List.range month).foldl (fun acc m => acc + daysInMonth year m) 0

/-- Embeds `new Date(year, month, day).getDay()` (main.ts line 185):
Sunday-first weekday index, 0 = Sunday .. 6 = Saturday.  Anchored at
0001-01-01 being a Monday in the proleptic Gregorian calendar. -/
def dayOfWeek (year month day : Nat) : Nat :=
  (daysBeforeYear year + daysBeforeMonth year month + (day - 1) + 1) % 7

/-- Embeds the date-string template
``year-String(month+1).padStart(2,'0')-String(day).padStart(2,'0')``
(main.ts line 202; `month` is 0-based, `day` is 1-based). -/
def dateStr (year month day : Nat) : String :=
  jsNatToString year ++ "-" ++ jsPadStart2 (jsNatToString (month + 1)) ++ "-" ++
    jsPadStart2 (jsNatToString day)

/-- One cell of the rendered calendar grid (main.ts lines 194-236): either a
leading placeholder (`calendar-day empty`) or a day cell carrying its day
number, its date string and the entries rendered into it. -/
inductive CalendarCell where
  | empty : CalendarCell
  | day (dayNumber : Nat) (date : String) (entriesForDay : List HabitEntry) : CalendarCell
deriving DecidableEq, Repr

/-- Embeds the cell-producing part of `HabitCalendarView.renderCalendar`
(main.ts lines 177-237): after the fixed weekday-name header, a loop
appends `startingDayOfWeek` empty cells, then one cell per day
`1 .. daysInMonth`, each filtering the entries by its date string. -/
def monthGrid (s : HabitTrackerSettings) (year month : Nat) : List CalendarCell :=
  let daysInM := daysInMonth year month
  let startingDayOfWeek := dayOfWeek year month 1
  let afterEmpties :=
    (List.range startingDayOfWeek).foldl (fun cells _ => cells ++ [CalendarCell.empty]) []
  (List.range daysInM).foldl
    (fun cells k =>
      let d := k + 1
      let ds := dateStr year month d
      cells ++ [CalendarCell.day d ds (s.entries.filter (fun e => e.date == ds))])
    afterEmpties

/-- Embeds the per-habit count of `MonthlySummaryModal.onOpen`
(main.ts lines 317-335): entries matching the habit whose date string lies
between `monthStart` and `monthEnd` inclusive, compared as strings. -/
def monthlyCount (s : HabitTrackerSettings) (habitId : String) (year month : Nat) : Nat :=
  let monthStart := jsNatToString year ++ "-" ++ jsPadStart2 (jsNatToString (month + 1)) ++ "-01"
  let lastDay := daysInMonth year month
  let monthEnd := jsNatToString year ++ "-" ++ jsPadStart2 (jsNatToString (month + 1)) ++ "-" ++
    jsPadStart2 (jsNatToString lastDay)
  (s.entries.filter (fun e =>
    e.habitId == habitId && jsStrLeb monthStart e.date && jsStrLeb e.date monthEnd)).length

/-- Fixed-width decimal digit list of `n` (most significant digit first):
the canonical zero-padded `k`-digit numeral for `n < 10 ^ k`.  Used to
state what the rendered date strings look like. -/
def natDigits : Nat → Nat → List Char
  | 0, _ => []
  | k + 1, n => Nat.digitChar (n / 10 ^ k) :: natDigits k (n % 10 ^ k)

/-- Chronological strict order on `(year, 0-based month, day)` triples. -/
def dateTripleLt (y1 m1 d1 y2 m2 d2 : Nat) : Prop :=
  y1 < y2 ∨ (y1 = y2 ∧ (m1 < m2 ∨ (m1 = m2 ∧ d1 < d2)))

/-- Chronological non-strict order on `(year, 0-based month, day)` triples. -/
def dateTripleLe (y1 m1 d1 y2 m2 d2 : Nat) : Prop :=
  dateTripleLt y1 m1 d1 y2 m2 d2 ∨ (y1 = y2 ∧ m1 = m2 ∧ d1 = d2)

/-- The spec's `(habitId, date)` uniqueness invariant on the entry
collection: no two entries carry the same pair. -/
def entriesPairUnique (s : HabitTrackerSettings) : Prop :=
  s.entries.Pairwise (fun a b => ¬ (a.habitId = b.habitId ∧ a.date = b.date))

/-- True when the string neither starts nor ends with a character that
JavaScript `trim` would remove. -/
def noSurroundingWhitespace (str : String) : Bool :=
  str.data.head?.all (fun c => !jsWhitespace c) &&
    str.data.getLast?.all (fun c => !jsWhitespace c)

/-! ### Helper lemmas about `toggleEntry` -/

theorem entries_any_pair_iff (s : HabitTrackerSettings) (habitId date : String) :
    (s.entries.any (fun e => e.habitId == habitId && e.date == date) = true) ↔
      ∃ e ∈ s.entries, e.habitId = habitId ∧ e.date = date := by
  simp [List.any_eq_true, Bool.and_eq_true, beq_iff_eq]

theorem toggleEntry_of_present (s : HabitTrackerSettings) (habitId date : String)
    (h : ∃ e ∈ s.entries, e.habitId = habitId ∧ e.date = date) :
    toggleEntry s habitId date =
      ({ s with entries :=
          s.entries.filter (fun e => !(e.habitId == habitId && e.date == date)) },
       [{ s with entries :=
          s.entries.filter (fun e => !(e.habitId == habitId && e.date == date)) }]) := by
  have hany := (entries_any_pair_iff s habitId date).2 h
  simp [toggleEntry, hany]

theorem toggleEntry_of_absent (s : HabitTrackerSettings) (habitId date : String)
    (h : ¬ ∃ e ∈ s.entries, e.habitId = habitId ∧ e.date = date) :
    toggleEntry s habitId date =
      ({ s with entries := s.entries ++ [⟨habitId, date⟩] },
       [{ s with entries := s.entries ++ [⟨habitId, date⟩] }]) := by
  have hany : s.entries.any (fun e => e.habitId == habitId && e.date == date) = false := by
    rcases hb : s.entries.any (fun e => e.habitId == habitId && e.date == date) with _ | _
    · rfl
    · exact absurd ((entries_any_pair_iff s habitId date).1 hb) h
  simp [toggleEntry, hany]

theorem filter_not_pair_eq_self (l : List HabitEntry) (habitId date : String)
    (h : ¬ ∃ e ∈ l, e.habitId = habitId ∧ e.date = date) :
    l.filter (fun e => !(e.habitId == habitId && e.date == date)) = l := by
  refine List.filter_eq_self.2 (fun e he => ?_)
  have : ¬ (e.habitId = habitId ∧ e.date = date) := fun hc => h ⟨e, he, hc⟩
  simp only [Bool.not_eq_true', Bool.and_eq_true, beq_iff_eq]
  by_contra hcon
  rw [Bool.not_eq_false, Bool.and_eq_true, beq_iff_eq, beq_iff_eq] at hcon
  exact this hcon

/-! ### C2: toggling the same pair twice -/

/-- C2 counterexample: with the entry collection
`[("a", 2024-03-05), ("b", 2024-03-06)]`, toggling `("a", 2024-03-05)`
twice (unmark then mark) re-appends the pair at the end, yielding
`[("b", 2024-03-06), ("a", 2024-03-05)]` — the same entries but not in the
same order, so the double toggle is not always the identity. -/
theorem toggleEntry_twice_reorders :
    (toggleEntry (toggleEntry
        (⟨[], [⟨"a", "2024-03-05"⟩, ⟨"b", "2024-03-06"⟩]⟩ : HabitTrackerSettings)
        "a" "2024-03-05").1 "a" "2024-03-05").1.entries
      ≠ [⟨"a", "2024-03-05"⟩, ⟨"b", "2024-03-06"⟩] := by decide

/-- C2 (amended): toggling `(habitId, date)` twice restores the entry
collection exactly — same entries, same order — when the pair was
initially absent (mark then unmark); when the pair was initially present
(unmark then mark) the result is the original collection with every
matching entry removed and one fresh matching entry appended at the end,
which coincides with the original collection only when the matched entry
was unique and last. -/
theorem toggleEntry_twice (s : HabitTrackerSettings) (habitId date : String) :
    ((¬ ∃ e ∈ s.entries, e.habitId = habitId ∧ e.date = date) →
      (toggleEntry (toggleEntry s habitId date).1 habitId date).1.entries = s.entries) ∧
    ((∃ e ∈ s.entries, e.habitId = habitId ∧ e.date = date) →
      (toggleEntry (toggleEntry s habitId date).1 habitId date).1.entries =
        s.entries.filter (fun e => !(e.habitId == habitId && e.date == date)) ++
          [⟨habitId, date⟩]) := by
  constructor
  · intro habs
    rw [toggleEntry_of_absent s habitId date habs]
    have hpres : ∃ e ∈ s.entries ++ [(⟨habitId, date⟩ : HabitEntry)],
        e.habitId = habitId ∧ e.date = date :=
      ⟨⟨habitId, date⟩, by simp, rfl, rfl⟩
    rw [toggleEntry_of_present _ habitId date hpres]
    simp only [List.filter_append, filter_not_pair_eq_self s.entries habitId date habs]
    simp
  · intro hpres
    rw [toggleEntry_of_present s habitId date hpres]
    have habs : ¬ ∃ e ∈ s.entries.filter
        (fun e => !(e.habitId == habitId && e.date == date)),
        e.habitId = habitId ∧ e.date = date := by
      rintro ⟨e, he, h1, h2⟩
      have := (List.mem_filter.1 he).2
      simp [h1, h2] at this
    rw [toggleEntry_of_absent _ habitId date habs]

/-- C2 witness: concrete instance of the amended theorem's absent branch,
on a store holding one unrelated entry. -/
theorem toggleEntry_twice_witness :
    (¬ ∃ e ∈ (⟨[], [⟨"b", "2024-03-06"⟩]⟩ : HabitTrackerSettings).entries,
        e.habitId = "a" ∧ e.date = "2024-03-05") ∧
    (toggleEntry (toggleEntry (⟨[], [⟨"b", "2024-03-06"⟩]⟩ : HabitTrackerSettings)
        "a" "2024-03-05").1 "a" "2024-03-05").1.entries =
      (⟨[], [⟨"b", "2024-03-06"⟩]⟩ : HabitTrackerSettings).entries :=
  ⟨by decide,
   (toggleEntry_twice (⟨[], [⟨"b", "2024-03-06"⟩]⟩ : HabitTrackerSettings)
      "a" "2024-03-05").1 (by decide)⟩

/-! ### C9: unmark removes all matches, mark appends exactly one -/

/-- C9: the unmark branch removes every entry whose `(habitId, date)` pair
matches the arguments (even duplicates, should the starting state violate
pair-uniqueness); the mark branch appends exactly one entry at the end;
and a state whose entries are pairwise distinct on `(habitId, date)` stays
so across any toggle. -/
theorem toggleEntry_unmark_all_mark_one (s : HabitTrackerSettings) (habitId date : String) :
    ((∃ e ∈ s.entries, e.habitId = habitId ∧ e.date = date) →
      ∀ e ∈ (toggleEntry s habitId date).1.entries,
        ¬ (e.habitId = habitId ∧ e.date = date)) ∧
    ((¬ ∃ e ∈ s.entries, e.habitId = habitId ∧ e.date = date) →
      (toggleEntry s habitId date).1.entries = s.entries ++ [⟨habitId, date⟩]) ∧
    (entriesPairUnique s → entriesPairUnique (toggleEntry s habitId date).1) := by
  refine ⟨?_, ?_, ?_⟩
  · intro hpres e he
    rw [toggleEntry_of_present s habitId date hpres] at he
    have := (List.mem_filter.1 he).2
    rintro ⟨h1, h2⟩
    simp [h1, h2] at this
  · intro habs
    rw [toggleEntry_of_absent s habitId date habs]
  · intro huniq
    by_cases hpres : ∃ e ∈ s.entries, e.habitId = habitId ∧ e.date = date
    · rw [toggleEntry_of_present s habitId date hpres]
      exact List.Pairwise.filter _ huniq
    · rw [toggleEntry_of_absent s habitId date hpres]
      unfold entriesPairUnique at huniq ⊢
      rw [List.pairwise_append]
      refine ⟨huniq, List.pairwise_singleton _ _, ?_⟩
      rintro a ha b hb ⟨h1, h2⟩
      have hbd : b = (⟨habitId, date⟩ : HabitEntry) := by simpa using hb
      subst hbd
      exact hpres ⟨a, ha, by simpa using h1, by simpa using h2⟩

/-- C9 witness: concrete instance of the unmark branch on a degenerate
store that holds the pair `("a", 2024-03-05)` twice: after the toggle no
matching entry remains. -/
theorem toggleEntry_unmark_all_witness :
    (∃ e ∈ (⟨[], [⟨"a", "2024-03-05"⟩, ⟨"b", "2024-03-06"⟩, ⟨"a", "2024-03-05"⟩]⟩ :
        HabitTrackerSettings).entries, e.habitId = "a" ∧ e.date = "2024-03-05") ∧
    ∀ e ∈ (toggleEntry (⟨[], [⟨"a", "2024-03-05"⟩, ⟨"b", "2024-03-06"⟩,
        ⟨"a", "2024-03-05"⟩]⟩ : HabitTrackerSettings) "a" "2024-03-05").1.entries,
      ¬ (e.habitId = "a" ∧ e.date = "2024-03-05") :=
  ⟨by decide,
   (toggleEntry_unmark_all_mark_one (⟨[], [⟨"a", "2024-03-05"⟩, ⟨"b", "2024-03-06"⟩,
      ⟨"a", "2024-03-05"⟩]⟩ : HabitTrackerSettings) "a" "2024-03-05").1 (by decide)⟩

/-! ### C5: no habit-existence check in the toggle handler -/

/-- C5 counterexample: on a store whose habit collection is empty, toggling
the unknown habit id `"ghost"` does not fail and does not leave the entry
collection unchanged — it inserts an orphan entry. -/
theorem toggleEntry_orphan_insertion :
    (∀ h ∈ (⟨[], []⟩ : HabitTrackerSettings).habits, h.id ≠ "ghost") ∧
    (toggleEntry (⟨[], []⟩ : HabitTrackerSettings) "ghost" "2024-01-01").1.entries =
      [⟨"ghost", "2024-01-01"⟩] ∧
    (toggleEntry (⟨[], []⟩ : HabitTrackerSettings) "ghost" "2024-01-01").1.entries ≠
      (⟨[], []⟩ : HabitTrackerSettings).entries := by decide

/-- C5 (amended): the toggle handler never consults the habit collection;
with a `habitId` that references no existing habit and a pair not yet
present it still appends an orphan entry (and saves), rather than failing
with `NotFoundError` and leaving the entries unchanged. -/
theorem toggleEntry_ignores_habit_existence (s : HabitTrackerSettings)
    (habitId date : String)
    (habsent : habitId ∉ s.habits.map Habit.id)
    (hnopair : ¬ ∃ e ∈ s.entries, e.habitId = habitId ∧ e.date = date) :
    (toggleEntry s habitId date).1.entries = s.entries ++ [⟨habitId, date⟩] ∧
    (toggleEntry s habitId date).2 = [(toggleEntry s habitId date).1] := by
  rw [toggleEntry_of_absent s habitId date hnopair]
  exact ⟨rfl, rfl⟩

/-- C5 witness: concrete orphan toggle on a store holding one habit with a
different id. -/
theorem toggleEntry_ignores_habit_existence_witness :
    (("ghost" ∉ (⟨[⟨"1", "Read", "book", "#fff"⟩], []⟩ :
        HabitTrackerSettings).habits.map Habit.id) ∧
     ¬ ∃ e ∈ (⟨[⟨"1", "Read", "book", "#fff"⟩], []⟩ :
        HabitTrackerSettings).entries, e.habitId = "ghost" ∧ e.date = "2024-01-01") ∧
    ((toggleEntry (⟨[⟨"1", "Read", "book", "#fff"⟩], []⟩ : HabitTrackerSettings)
        "ghost" "2024-01-01").1.entries =
      (⟨[⟨"1", "Read", "book", "#fff"⟩], []⟩ : HabitTrackerSettings).entries ++
        [⟨"ghost", "2024-01-01"⟩] ∧
     (toggleEntry (⟨[⟨"1", "Read", "book", "#fff"⟩], []⟩ : HabitTrackerSettings)
        "ghost" "2024-01-01").2 =
      [(toggleEntry (⟨[⟨"1", "Read", "book", "#fff"⟩], []⟩ : HabitTrackerSettings)
        "ghost" "2024-01-01").1]) :=
  ⟨⟨by decide, by decide⟩,
   toggleEntry_ignores_habit_existence
     (⟨[⟨"1", "Read", "book", "#fff"⟩], []⟩ : HabitTrackerSettings)
     "ghost" "2024-01-01" (by decide) (by decide)⟩

/-! ### C4: validation failures leave the store untouched -/

/-- C4: when the name or the icon is empty after trimming, `addHabit`
signals `ValidationError` to the caller (it returns the error value rather
than raising), produces no successor state — both collections are exactly
as before — and performs no save. -/
theorem addHabit_validation_rejects (s : HabitTrackerSettings)
    (name icon color : String) (now : Nat)
    (h : jsTrim name = "" ∨ jsTrim icon = "") :
    addHabit s name icon color now = (Except.error StoreError.validationError, []) := by
  rcases h with h | h
  · simp [addHabit, h]
  · by_cases hn : jsTrim name = ""
    · simp [addHabit, hn]
    · simp [addHabit, hn, h]

/-- C4 witness: `AddHabit("", "book", "#fff")` and
`AddHabit("Name", "  ", "#fff")` both reject without saving. -/
theorem addHabit_validation_rejects_witness :
    ((jsTrim "" = "" ∨ jsTrim "book" = "") ∧
      addHabit (⟨[⟨"1", "Read", "book", "#fff"⟩], [⟨"1", "2024-01-01"⟩]⟩ :
          HabitTrackerSettings) "" "book" "#fff" 77 =
        (Except.error StoreError.validationError, [])) ∧
    ((jsTrim "Name" = "" ∨ jsTrim "  " = "") ∧
      addHabit (⟨[⟨"1", "Read", "book", "#fff"⟩], [⟨"1", "2024-01-01"⟩]⟩ :
          HabitTrackerSettings) "Name" "  " "#fff" 77 =
        (Except.error StoreError.validationError, [])) :=
  ⟨⟨by decide,
    addHabit_validation_rejects _ "" "book" "#fff" 77 (by decide)⟩,
   ⟨by decide,
    addHabit_validation_rejects _ "Name" "  " "#fff" 77 (by decide)⟩⟩

/-! ### C1: cascading delete -/

theorem not_mem_eraseIdx_of_nodup {α : Type} [DecidableEq α] :
    ∀ (l : List α) (i : Nat) (a : α), l.Nodup → l[i]? = some a → a ∉ l.eraseIdx i := by
  intro l
  induction l with
  | nil => intro i a _ hget; simp at hget
  | cons b t ih =>
    intro i a hnd hget
    rcases i with _ | j
    · rw [List.getElem?_cons_zero] at hget
      cases hget
      rw [List.eraseIdx_cons_zero]
      exact (List.nodup_cons.1 hnd).1
    · rw [List.getElem?_cons_succ] at hget
      rw [List.eraseIdx_cons_succ]
      have hmem : a ∈ t := List.getElem?_mem hget
      intro hin
      rcases List.mem_cons.1 hin with hab | hin'
      · exact (List.nodup_cons.1 hnd).1 (hab ▸ hmem)
      · exact ih j a (List.nodup_cons.1 hnd).2 hget hin'

/-- C1: deleting the habit rendered at `index` removes it from the habit
collection (under the store invariant that habit ids are unique) and, in
the same handler, removes every entry whose `habitId` equals its id, so
`entriesOn` never again returns an entry referencing it on any date; and
exactly one save happens, of the state after both removals. -/
theorem deleteHabit_cascades (s : HabitTrackerSettings) (index : Nat) (habit : Habit)
    (hidx : s.habits[index]? = some habit)
    (hnodup : (s.habits.map Habit.id).Nodup) :
    habit ∉ (deleteHabit s index habit).1.habits ∧
    (∀ e ∈ (deleteHabit s index habit).1.entries, e.habitId ≠ habit.id) ∧
    (∀ d, ∀ e ∈ entriesOn (deleteHabit s index habit).1 d, e.habitId ≠ habit.id) ∧
    (deleteHabit s index habit).2 = [(deleteHabit s index habit).1] := by
  have hentry : ∀ e ∈ (deleteHabit s index habit).1.entries, e.habitId ≠ habit.id := by
    intro e he
    have hp := (List.mem_filter.1 he).2
    simpa using hp
  refine ⟨?_, hentry, ?_, rfl⟩
  · have hnd : s.habits.Nodup := List.Nodup.of_map Habit.id hnodup
    exact not_mem_eraseIdx_of_nodup s.habits index habit hnd hidx
  · intro d e he
    exact hentry e (List.mem_filter.1 he).1

/-- C1 witness: concrete two-habit store with entries for both habits on
two dates; deleting the first habit leaves no trace of it. -/
theorem deleteHabit_cascades_witness :
    ((⟨[⟨"1", "Read", "book", "#fff"⟩, ⟨"2", "Run", "dumbbell", "#000"⟩],
        [⟨"1", "2024-03-05"⟩, ⟨"2", "2024-03-05"⟩, ⟨"1", "2024-03-06"⟩]⟩ :
        HabitTrackerSettings).habits[0]? = some ⟨"1", "Read", "book", "#fff"⟩ ∧
      ((⟨[⟨"1", "Read", "book", "#fff"⟩, ⟨"2", "Run", "dumbbell", "#000"⟩],
        [⟨"1", "2024-03-05"⟩, ⟨"2", "2024-03-05"⟩, ⟨"1", "2024-03-06"⟩]⟩ :
        HabitTrackerSettings).habits.map Habit.id).Nodup) ∧
    ((⟨"1", "Read", "book", "#fff"⟩ : Habit) ∉
        (deleteHabit (⟨[⟨"1", "Read", "book", "#fff"⟩, ⟨"2", "Run", "dumbbell", "#000"⟩],
          [⟨"1", "2024-03-05"⟩, ⟨"2", "2024-03-05"⟩, ⟨"1", "2024-03-06"⟩]⟩ :
          HabitTrackerSettings) 0 ⟨"1", "Read", "book", "#fff"⟩).1.habits ∧
      (∀ e ∈ (deleteHabit (⟨[⟨"1", "Read", "book", "#fff"⟩, ⟨"2", "Run", "dumbbell", "#000"⟩],
          [⟨"1", "2024-03-05"⟩, ⟨"2", "2024-03-05"⟩, ⟨"1", "2024-03-06"⟩]⟩ :
          HabitTrackerSettings) 0 ⟨"1", "Read", "book", "#fff"⟩).1.entries,
        e.habitId ≠ (⟨"1", "Read", "book", "#fff"⟩ : Habit).id) ∧
      (∀ d, ∀ e ∈ entriesOn (deleteHabit (⟨[⟨"1", "Read", "book", "#fff"⟩,
          ⟨"2", "Run", "dumbbell", "#000"⟩],
          [⟨"1", "2024-03-05"⟩, ⟨"2", "2024-03-05"⟩, ⟨"1", "2024-03-06"⟩]⟩ :
          HabitTrackerSettings) 0 ⟨"1", "Read", "book", "#fff"⟩).1 d,
        e.habitId ≠ (⟨"1", "Read", "book", "#fff"⟩ : Habit).id) ∧
      (deleteHabit (⟨[⟨"1", "Read", "book", "#fff"⟩, ⟨"2", "Run", "dumbbell", "#000"⟩],
          [⟨"1", "2024-03-05"⟩, ⟨"2", "2024-03-05"⟩, ⟨"1", "2024-03-06"⟩]⟩ :
          HabitTrackerSettings) 0 ⟨"1", "Read", "book", "#fff"⟩).2 =
        [(deleteHabit (⟨[⟨"1", "Read", "book", "#fff"⟩, ⟨"2", "Run", "dumbbell", "#000"⟩],
          [⟨"1", "2024-03-05"⟩, ⟨"2", "2024-03-05"⟩, ⟨"1", "2024-03-06"⟩]⟩ :
          HabitTrackerSettings) 0 ⟨"1", "Read", "book", "#fff"⟩).1]) :=
  ⟨⟨by decide, by decide⟩,
   deleteHabit_cascades
     (⟨[⟨"1", "Read", "book", "#fff"⟩, ⟨"2", "Run", "dumbbell", "#000"⟩],
       [⟨"1", "2024-03-05"⟩, ⟨"2", "2024-03-05"⟩, ⟨"1", "2024-03-06"⟩]⟩ :
       HabitTrackerSettings) 0 ⟨"1", "Read", "book", "#fff"⟩ (by decide) (by decide)⟩

/-! ### C3: id generation from the clock -/

/-- C3 counterexample: the generated id is `Date.now().toString()`; on a
store already holding a habit with id `"5"` (created at clock tick 5), an
`addHabit` at the same clock tick appends a habit with the same id `"5"`,
so the new id is not fresh and ids are no longer pairwise distinct. -/
theorem addHabit_same_tick_id_collision :
    (addHabit (⟨[⟨"5", "Read", "book", "#fff"⟩], []⟩ : HabitTrackerSettings)
        "Run" "dumbbell" "#000" 5).1 =
      Except.ok
        ((⟨[⟨"5", "Read", "book", "#fff"⟩, ⟨"5", "Run", "dumbbell", "#000"⟩], []⟩ :
          HabitTrackerSettings),
         (⟨"5", "Run", "dumbbell", "#000"⟩ : Habit)) ∧
    ¬ ((([⟨"5", "Read", "book", "#fff"⟩, ⟨"5", "Run", "dumbbell", "#000"⟩] :
        List Habit).map Habit.id).Nodup) :=
  ⟨rfl, by decide⟩

/-- C3 (amended): with valid trimmed inputs, `addHabit` appends exactly one
habit at the end of the collection (length grows by one, insertion order
preserved) and returns it; its id is the decimal string of the creation
clock tick, which is fresh precisely when no existing habit carries that
string — hence not guaranteed fresh for two habits created in the same
clock tick. -/
theorem addHabit_appends_timestamp_id (s : HabitTrackerSettings)
    (name icon color : String) (now : Nat)
    (hname : jsTrim name ≠ "") (hicon : jsTrim icon ≠ "")
    (hfresh : jsNatToString now ∉ s.habits.map Habit.id) :
    (addHabit s name icon color now).1 =
      Except.ok ({ s with habits := s.habits ++
          ([⟨jsNatToString now, jsTrim name, jsTrim icon, color⟩] : List Habit) },
        (⟨jsNatToString now, jsTrim name, jsTrim icon, color⟩ : Habit)) ∧
    (s.habits ++ ([⟨jsNatToString now, jsTrim name, jsTrim icon, color⟩] : List Habit)).length =
      s.habits.length + 1 ∧
    (⟨jsNatToString now, jsTrim name, jsTrim icon, color⟩ : Habit).id ∉
      s.habits.map Habit.id := by
  refine ⟨?_, by simp, hfresh⟩
  simp [addHabit, hname, hicon]

/-- C3 witness: adding at clock tick 6 to a store whose only id is `"5"`. -/
theorem addHabit_appends_timestamp_id_witness :
    ((jsTrim "Run" ≠ "" ∧ jsTrim "dumbbell" ≠ "") ∧
      jsNatToString 6 ∉
        (⟨[⟨"5", "Read", "book", "#fff"⟩], []⟩ :
          HabitTrackerSettings).habits.map Habit.id) ∧
    ((addHabit (⟨[⟨"5", "Read", "book", "#fff"⟩], []⟩ : HabitTrackerSettings)
        "Run" "dumbbell" "#000" 6).1 =
      Except.ok ({ (⟨[⟨"5", "Read", "book", "#fff"⟩], []⟩ : HabitTrackerSettings) with
          habits := (⟨[⟨"5", "Read", "book", "#fff"⟩], []⟩ :
            HabitTrackerSettings).habits ++
            ([⟨jsNatToString 6, jsTrim "Run", jsTrim "dumbbell", "#000"⟩] : List Habit) },
        (⟨jsNatToString 6, jsTrim "Run", jsTrim "dumbbell", "#000"⟩ : Habit)) ∧
      ((⟨[⟨"5", "Read", "book", "#fff"⟩], []⟩ : HabitTrackerSettings).habits ++
        ([⟨jsNatToString 6, jsTrim "Run", jsTrim "dumbbell", "#000"⟩] : List Habit)).length =
        (⟨[⟨"5", "Read", "book", "#fff"⟩], []⟩ :
          HabitTrackerSettings).habits.length + 1 ∧
      (⟨jsNatToString 6, jsTrim "Run", jsTrim "dumbbell", "#000"⟩ : Habit).id ∉
        (⟨[⟨"5", "Read", "book", "#fff"⟩], []⟩ :
          HabitTrackerSettings).habits.map Habit.id) :=
  ⟨⟨⟨by decide, by decide⟩, by decide⟩,
   addHabit_appends_timestamp_id
     (⟨[⟨"5", "Read", "book", "#fff"⟩], []⟩ : HabitTrackerSettings)
     "Run" "dumbbell" "#000" 6 (by decide) (by decide) (by decide)⟩

/-! ### C10: stored habits carry trimmed name and icon -/

theorem dropWhile_head?_not {α : Type} (p : α → Bool) :
    ∀ (l : List α) (c : α), (l.dropWhile p).head? = some c → p c = false := by
  intro l
  induction l with
  | nil => intro c hc; simp at hc
  | cons a t ih =>
    intro c hc
    rw [List.dropWhile_cons] at hc
    by_cases hpa : p a = true
    · exact ih c (by simpa [hpa] using hc)
    · rw [if_neg (by simp [hpa])] at hc
      rw [List.head?_cons] at hc
      cases hc
      simpa using hpa

theorem dropWhile_getLast?_of_ne_nil {α : Type} (p : α → Bool) :
    ∀ (l : List α), l.dropWhile p ≠ [] → (l.dropWhile p).getLast? = l.getLast? := by
  intro l
  induction l with
  | nil => intro h; simp [List.dropWhile] at h
  | cons a t ih =>
    intro h
    rw [List.dropWhile_cons] at h ⊢
    by_cases hpa : p a = true
    · rw [if_pos hpa] at h ⊢
      have ht : t ≠ [] := by
        intro ht
        subst ht
        simp [List.dropWhile] at h
      rcases t with _ | ⟨b, t'⟩
      · exact absurd rfl ht
      · rw [ih h, List.getLast?_cons_cons]
    · rw [if_neg hpa]

/-- Trimming leaves a string with no leading or trailing whitespace. -/
theorem jsTrim_noSurroundingWhitespace (s : String) :
    noSurroundingWhitespace (jsTrim s) = true := by
  unfold noSurroundingWhitespace jsTrim
  rcases h2 : (s.data.dropWhile jsWhitespace).reverse.dropWhile jsWhitespace
    with _ | ⟨c, l2t⟩
  · simp [h2]
  · have hl2ne : (s.data.dropWhile jsWhitespace).reverse.dropWhile jsWhitespace ≠ [] := by
      rw [h2]
      exact List.cons_ne_nil c l2t
    have hc : jsWhitespace c = false := by
      apply dropWhile_head?_not jsWhitespace ((s.data.dropWhile jsWhitespace).reverse)
      rw [h2]
      rfl
    have hgl : (c :: l2t).getLast? = (s.data.dropWhile jsWhitespace).head? := by
      rw [← h2, dropWhile_getLast?_of_ne_nil jsWhitespace _ hl2ne, List.getLast?_reverse]
    rcases h1 : (s.data.dropWhile jsWhitespace).head? with _ | c'
    · have hnil : s.data.dropWhile jsWhitespace = [] := List.head?_eq_none_iff.1 h1
      rw [hnil] at h2
      simp at h2
    · have hc' : jsWhitespace c' = false := dropWhile_head?_not jsWhitespace s.data c' h1
      rw [h1] at hgl
      show (Option.all (fun ch => !jsWhitespace ch) (c :: l2t).reverse.head? &&
        Option.all (fun ch => !jsWhitespace ch) (c :: l2t).reverse.getLast?) = true
      rw [List.head?_reverse, List.getLast?_reverse, hgl, List.head?_cons]
      simp [Option.all, hc, hc']

/-- C10: a successful `addHabit` stores the trimmed name and trimmed icon
and the color as given, and a successful `editHabit` overwrites the habit
rendered at `index` with the trimmed name, trimmed icon and given color
(id untouched); trimmed strings carry no surrounding whitespace. -/
theorem habit_fields_stored_trimmed (s : HabitTrackerSettings) (index : Nat)
    (habit : Habit) (name icon color : String) (now : Nat)
    (hname : jsTrim name ≠ "") (hicon : jsTrim icon ≠ "")
    (hidx : s.habits[index]? = some habit) :
    (addHabit s name icon color now).1 =
      Except.ok ({ s with habits := s.habits ++
          ([⟨jsNatToString now, jsTrim name, jsTrim icon, color⟩] : List Habit) },
        (⟨jsNatToString now, jsTrim name, jsTrim icon, color⟩ : Habit)) ∧
    (editHabit s index name icon color).1 =
      { s with habits := s.habits.set index ⟨habit.id, jsTrim name, jsTrim icon, color⟩ } ∧
    noSurroundingWhitespace (jsTrim name) = true ∧
    noSurroundingWhitespace (jsTrim icon) = true := by
  refine ⟨?_, ?_, jsTrim_noSurroundingWhitespace name, jsTrim_noSurroundingWhitespace icon⟩
  · simp [addHabit, hname, hicon]
  · simp [editHabit, hname, hicon, hidx]

/-- C10 witness: adding and editing with inputs carrying surrounding
whitespace on a concrete one-habit store. -/
theorem habit_fields_stored_trimmed_witness :
    ((jsTrim " Read " ≠ "" ∧ jsTrim " book " ≠ "") ∧
      (⟨[⟨"1", "Old", "pen", "#111"⟩], []⟩ : HabitTrackerSettings).habits[0]? =
        some ⟨"1", "Old", "pen", "#111"⟩) ∧
    ((addHabit (⟨[⟨"1", "Old", "pen", "#111"⟩], []⟩ : HabitTrackerSettings)
        " Read " " book " "#fff" 9).1 =
      Except.ok ({ (⟨[⟨"1", "Old", "pen", "#111"⟩], []⟩ : HabitTrackerSettings) with
          habits := (⟨[⟨"1", "Old", "pen", "#111"⟩], []⟩ :
            HabitTrackerSettings).habits ++
            ([⟨jsNatToString 9, jsTrim " Read ", jsTrim " book ", "#fff"⟩] : List Habit) },
        (⟨jsNatToString 9, jsTrim " Read ", jsTrim " book ", "#fff"⟩ : Habit)) ∧
      (editHabit (⟨[⟨"1", "Old", "pen", "#111"⟩], []⟩ : HabitTrackerSettings)
        0 " Read " " book " "#fff").1 =
      { (⟨[⟨"1", "Old", "pen", "#111"⟩], []⟩ : HabitTrackerSettings) with
          habits := (⟨[⟨"1", "Old", "pen", "#111"⟩], []⟩ :
            HabitTrackerSettings).habits.set 0
            ⟨(⟨"1", "Old", "pen", "#111"⟩ : Habit).id, jsTrim " Read ",
              jsTrim " book ", "#fff"⟩ } ∧
      noSurroundingWhitespace (jsTrim " Read ") = true ∧
      noSurroundingWhitespace (jsTrim " book ") = true) :=
  ⟨⟨⟨by decide, by decide⟩, by decide⟩,
   habit_fields_stored_trimmed
     (⟨[⟨"1", "Old", "pen", "#111"⟩], []⟩ : HabitTrackerSettings)
     0 ⟨"1", "Old", "pen", "#111"⟩ " Read " " book " "#fff" 9
     (by decide) (by decide) (by decide)⟩

/-! ### C6: month grid layout -/

theorem foldl_append_singleton {α β : Type} (f : β → α) :
    ∀ (l : List β) (acc : List α),
      l.foldl (fun cells k => cells ++ [f k]) acc = acc ++ l.map f := by
  intro l
  induction l with
  | nil => intro acc; simp
  | cons b t ih => intro acc; simp [List.foldl_cons, ih]

theorem foldl_append_const {α : Type} (c : α) :
    ∀ (l : List Nat) (acc : List α),
      l.foldl (fun cells _ => cells ++ [c]) acc = acc ++ List.replicate l.length c := by
  intro l
  induction l with
  | nil => intro acc; simp
  | cons b t ih =>
    intro acc
    rw [List.foldl_cons, ih, List.length_cons, List.append_assoc]
    congr 1

/-- C6: the rendered grid is a leading run of placeholder cells — as many
as the Sunday-first weekday index of the month's first day — followed by
one cell per day `1 .. daysInMonth`, each carrying its zero-padded
`YYYY-MM-DD` date string and exactly the entries of that date
(`entriesOn`); month lengths lie in 28..31 with February resolved by the
leap-year rule, and for February 2024 the grid has 29 day cells after 4
placeholders (2024-02-01 is a Thursday, index 4). -/
theorem monthGrid_layout (s : HabitTrackerSettings) (year month : Nat)
    (hm : month < 12) :
    (monthGrid s year month =
      List.replicate (dayOfWeek year month 1) CalendarCell.empty ++
        (List.range (daysInMonth year month)).map
          (fun k => CalendarCell.day (k + 1) (dateStr year month (k + 1))
            (entriesOn s (dateStr year month (k + 1))))) ∧
    (28 ≤ daysInMonth year month ∧ daysInMonth year month ≤ 31) ∧
    daysInMonth year 1 = (if isLeapYear year = true then 29 else 28) ∧
    daysInMonth 2024 1 = 29 ∧ dayOfWeek 2024 1 1 = 4 ∧
    dateStr 2024 1 1 = "2024-02-01" ∧ dateStr 2024 1 29 = "2024-02-29" := by
  refine ⟨?_, ?_, ?_, by decide, by decide, by decide, by decide⟩
  · simp only [monthGrid]
    rw [foldl_append_const CalendarCell.empty (List.range (dayOfWeek year month 1)) [],
      foldl_append_singleton
        (fun k => CalendarCell.day (k + 1) (dateStr year month (k + 1))
          (s.entries.filter (fun e => e.date == dateStr year month (k + 1))))
        (List.range (daysInMonth year month))]
    simp [entriesOn, List.length_range]
  · unfold daysInMonth
    split
    · split <;> omega
    · split <;> omega
  · simp [daysInMonth]

/-- C6 witness: February 2024 on the empty store. -/
theorem monthGrid_layout_witness :
    (1 < 12) ∧
    ((monthGrid (⟨[], []⟩ : HabitTrackerSettings) 2024 1 =
      List.replicate (dayOfWeek 2024 1 1) CalendarCell.empty ++
        (List.range (daysInMonth 2024 1)).map
          (fun k => CalendarCell.day (k + 1) (dateStr 2024 1 (k + 1))
            (entriesOn (⟨[], []⟩ : HabitTrackerSettings) (dateStr 2024 1 (k + 1))))) ∧
     (28 ≤ daysInMonth 2024 1 ∧ daysInMonth 2024 1 ≤ 31) ∧
     daysInMonth 2024 1 = (if isLeapYear 2024 = true then 29 else 28) ∧
     daysInMonth 2024 1 = 29 ∧ dayOfWeek 2024 1 1 = 4 ∧
     dateStr 2024 1 1 = "2024-02-01" ∧ dateStr 2024 1 29 = "2024-02-29") :=
  ⟨by decide, monthGrid_layout (⟨[], []⟩ : HabitTrackerSettings) 2024 1 (by decide)⟩

/-! ### C7: monthly count over computed month bounds -/

/-- C7: the summary count equals the number of entries whose `habitId`
matches and whose date string lies, under the store's string comparison,
between the month's first day and its computed last day inclusive; for a
store with entries on 2024-01-01, 2024-01-31 and 2024-02-01, the January
2024 count is 2 — the February entry is excluded. -/
theorem monthlyCount_range (s : HabitTrackerSettings) (habitId : String)
    (year month : Nat) :
    (monthlyCount s habitId year month =
      (s.entries.filter (fun e => e.habitId == habitId &&
        jsStrLeb (dateStr year month 1) e.date &&
        jsStrLeb e.date (dateStr year month (daysInMonth year month)))).length) ∧
    monthlyCount (⟨[], [⟨"h", "2024-01-01"⟩, ⟨"h", "2024-01-31"⟩,
      ⟨"h", "2024-02-01"⟩]⟩ : HabitTrackerSettings) "h" 2024 0 = 2 := by
  refine ⟨?_, by decide⟩
  have hstart : jsNatToString year ++ "-" ++ jsPadStart2 (jsNatToString (month + 1)) ++
      "-01" = dateStr year month 1 := by
    unfold dateStr
    rw [show jsPadStart2 (jsNatToString 1) = "01" from by decide,
      show ("-01" : String) = "-" ++ "01" from by decide]
    simp [String.append_assoc]
  simp only [monthlyCount, hstart]
  rfl

/-! ### C8: lexicographic date-string order is chronological order

The chain below characterises the rendered date strings as fixed-width
digit lists (`natDigits`) and shows that `charListLtb` on them mirrors the
numeric order field by field. -/

theorem char_eq_of_not_lt {a b : Char} (h1 : ¬ a < b) (h2 : ¬ b < a) : a = b := by
  rcases lt_trichotomy a b with h | h | h
  · exact absurd h h1
  · exact h
  · exact absurd h h2

theorem charListLtb_cons_iff (a b : Char) (as bs : List Char) :
    charListLtb (a :: as) (b :: bs) = true ↔
      (a < b ∨ (a = b ∧ charListLtb as bs = true)) := by
  show (if a < b then true else if b < a then false else charListLtb as bs) = true ↔ _
  rcases lt_trichotomy a b with h | h | h
  · simp [h]
  · subst h
    simp [lt_irrefl]
  · rw [if_neg (lt_asymm h), if_pos h]
    constructor
    · intro hc
      exact absurd hc (by simp)
    · rintro (hc | ⟨rfl, _⟩)
      · exact absurd hc (lt_asymm h)
      · exact absurd h (lt_irrefl a)

theorem charListLtb_append_iff :
    ∀ (xs ys as bs : List Char), xs.length = ys.length →
      (charListLtb (xs ++ as) (ys ++ bs) = true ↔
        (charListLtb xs ys = true ∨ (xs = ys ∧ charListLtb as bs = true))) := by
  intro xs
  induction xs with
  | nil =>
    intro ys as bs hlen
    have hys : ys = [] := by
      rcases ys with _ | ⟨c, t⟩
      · rfl
      · simp at hlen
    subst hys
    simp [charListLtb]
  | cons a xs ih =>
    intro ys as bs hlen
    rcases ys with _ | ⟨b, ys⟩
    · simp at hlen
    · simp only [List.cons_append]
      rw [charListLtb_cons_iff, charListLtb_cons_iff,
        ih ys as bs (by simpa using hlen)]
      constructor
      · rintro (h | ⟨rfl, (h | ⟨rfl, h⟩)⟩)
        · exact Or.inl (Or.inl h)
        · exact Or.inl (Or.inr ⟨rfl, h⟩)
        · exact Or.inr ⟨rfl, h⟩
      · rintro ((h | ⟨rfl, h⟩) | ⟨heq, h⟩)
        · exact Or.inl h
        · exact Or.inr ⟨rfl, Or.inl h⟩
        · injection heq with h1 h2
          subst h1
          subst h2
          exact Or.inr ⟨rfl, Or.inr ⟨rfl, h⟩⟩

theorem digitChar_lt_iff : ∀ a, a < 10 → ∀ b, b < 10 →
    (Nat.digitChar a < Nat.digitChar b ↔ a < b) := by decide

theorem digitChar_inj_iff : ∀ a, a < 10 → ∀ b, b < 10 →
    (Nat.digitChar a = Nat.digitChar b ↔ a = b) := by decide

theorem nat_lt_iff_div_lt_or (t a b : Nat) (ht : 0 < t) :
    a < b ↔ (a / t < b / t ∨ (a / t = b / t ∧ a % t < b % t)) := by
  constructor
  · intro hab
    rcases Nat.lt_trichotomy (a / t) (b / t) with h | h | h
    · exact Or.inl h
    · refine Or.inr ⟨h, ?_⟩
      have ha := Nat.div_add_mod a t
      have hb := Nat.div_add_mod b t
      rw [← h] at hb
      have hma : a % t = a - t * (a / t) := by omega
      have hmb : b % t = b - t * (a / t) := by omega
      omega
    · exfalso
      have h1 : b < (b / t + 1) * t :=
        (Nat.div_lt_iff_lt_mul ht).1 (Nat.lt_succ_self _)
      have h2 : (b / t + 1) * t ≤ (a / t) * t := Nat.mul_le_mul_right t (by omega)
      have h3 : (a / t) * t ≤ a := Nat.div_mul_le_self a t
      exact absurd (by omega : b < a) (by omega)
  · rintro (h | ⟨heq, hmod⟩)
    · have h1 : a < (a / t + 1) * t :=
        (Nat.div_lt_iff_lt_mul ht).1 (Nat.lt_succ_self _)
      have h2 : (a / t + 1) * t ≤ (b / t) * t := Nat.mul_le_mul_right t (by omega)
      have h3 : (b / t) * t ≤ b := Nat.div_mul_le_self b t
      omega
    · have ha := Nat.div_add_mod a t
      have hb := Nat.div_add_mod b t
      rw [← heq] at hb
      omega

theorem nat_eq_iff_div_mod_eq (t a b : Nat) :
    a = b ↔ (a / t = b / t ∧ a % t = b % t) := by
  constructor
  · rintro rfl
    exact ⟨rfl, rfl⟩
  · rintro ⟨h1, h2⟩
    have ha := Nat.div_add_mod a t
    have hb := Nat.div_add_mod b t
    rw [← ha, ← hb, h1, h2]

theorem natDigits_length : ∀ (k n : Nat), (natDigits k n).length = k := by
  intro k
  induction k with
  | zero => intro n; rfl
  | succ k ih => intro n; simp [natDigits, ih]

theorem natDigits_ltb_iff : ∀ (k a b : Nat), a < 10 ^ k → b < 10 ^ k →
    (charListLtb (natDigits k a) (natDigits k b) = true ↔ a < b) := by
  intro k
  induction k with
  | zero =>
    intro a b ha hb
    simp only [natDigits]
    show charListLtb [] [] = true ↔ a < b
    simp [charListLtb]
    omega
  | succ k ih =>
    intro a b ha hb
    have h10 : (0:Nat) < 10 ^ k := Nat.pos_pow_of_pos k (by omega)
    have hp : (10:Nat) ^ (k + 1) = 10 ^ k * 10 := Nat.pow_succ 10 k
    have hda : a / 10 ^ k < 10 := by
      rw [Nat.div_lt_iff_lt_mul h10]
      omega
    have hdb : b / 10 ^ k < 10 := by
      rw [Nat.div_lt_iff_lt_mul h10]
      omega
    simp only [natDigits]
    rw [charListLtb_cons_iff,
      digitChar_lt_iff _ hda _ hdb,
      digitChar_inj_iff _ hda _ hdb,
      ih (a % 10 ^ k) (b % 10 ^ k) (Nat.mod_lt a h10) (Nat.mod_lt b h10),
      ← nat_lt_iff_div_lt_or (10 ^ k) a b h10]

theorem natDigits_inj_iff : ∀ (k a b : Nat), a < 10 ^ k → b < 10 ^ k →
    (natDigits k a = natDigits k b ↔ a = b) := by
  intro k
  induction k with
  | zero =>
    intro a b ha hb
    simp only [natDigits]
    simp
    omega
  | succ k ih =>
    intro a b ha hb
    have h10 : (0:Nat) < 10 ^ k := Nat.pos_pow_of_pos k (by omega)
    have hp : (10:Nat) ^ (k + 1) = 10 ^ k * 10 := Nat.pow_succ 10 k
    have hda : a / 10 ^ k < 10 := by
      rw [Nat.div_lt_iff_lt_mul h10]
      omega
    have hdb : b / 10 ^ k < 10 := by
      rw [Nat.div_lt_iff_lt_mul h10]
      omega
    simp only [natDigits, List.cons.injEq]
    rw [digitChar_inj_iff _ hda _ hdb,
      ih (a % 10 ^ k) (b % 10 ^ k) (Nat.mod_lt a h10) (Nat.mod_lt b h10),
      ← nat_eq_iff_div_mod_eq (10 ^ k) a b]

theorem natDigits_snoc : ∀ (k n : Nat), n < 10 ^ (k + 1) →
    natDigits (k + 1) n = natDigits k (n / 10) ++ [Nat.digitChar (n % 10)] := by
  intro k
  induction k with
  | zero =>
    intro n hn
    have h1 : n % 10 = n := Nat.mod_eq_of_lt (by simpa using hn)
    simp [natDigits, h1]
  | succ k ih =>
    intro n hn
    have hpos : (0:Nat) < 10 ^ (k + 1) := Nat.pos_pow_of_pos _ (by omega)
    have hmlt : n % 10 ^ (k + 1) < 10 ^ (k + 1) := Nat.mod_lt _ hpos
    have hmul : (10:Nat) ^ (k + 1) = 10 * 10 ^ k := by
      rw [Nat.pow_succ]
      ring
    have e1 : (n % 10 ^ (k + 1)) % 10 = n % 10 :=
      Nat.mod_mod_of_dvd n (dvd_pow_self 10 (Nat.succ_ne_zero k))
    have e2 : (n % 10 ^ (k + 1)) / 10 = (n / 10) % 10 ^ k := by
      rw [hmul]
      exact Nat.mod_mul_right_div_self n 10 (10 ^ k)
    have e3 : (n / 10) / 10 ^ k = n / 10 ^ (k + 1) := by
      rw [Nat.div_div_eq_div_mul, ← hmul]
    show Nat.digitChar (n / 10 ^ (k + 1)) :: natDigits (k + 1) (n % 10 ^ (k + 1)) =
      (Nat.digitChar ((n / 10) / 10 ^ k) :: natDigits k ((n / 10) % 10 ^ k)) ++
        [Nat.digitChar (n % 10)]
    rw [ih (n % 10 ^ (k + 1)) hmlt, e1, e2, e3, List.cons_append]

theorem natToDigitsAux_eq : ∀ (k fuel n : Nat) (acc : List Char), k < fuel →
    10 ^ k ≤ n → n < 10 ^ (k + 1) →
    natToDigitsAux fuel n acc = natDigits (k + 1) n ++ acc := by
  intro k
  induction k with
  | zero =>
    intro fuel n acc hf hl hu
    rcases fuel with _ | f
    · omega
    · have hu' : n < 10 := by simpa using hu
      have h0 : n / 10 = 0 := Nat.div_eq_of_lt hu'
      have h1 : n % 10 = n := Nat.mod_eq_of_lt hu'
      simp [natToDigitsAux, h0, natDigits, h1]
  | succ k ih =>
    intro fuel n acc hf hl hu
    rcases fuel with _ | f
    · omega
    · have hmul : (10:Nat) ^ (k + 1) = 10 ^ k * 10 := Nat.pow_succ 10 k
      have hmul2 : (10:Nat) ^ (k + 2) = 10 ^ (k + 1) * 10 := Nat.pow_succ 10 (k + 1)
      have hne : ¬ (n / 10 = 0) := by
        intro h0
        have h10 : (10:Nat) ≤ n := by
          calc (10:Nat) ≤ 10 ^ (k + 1) := by
                have : (1:Nat) ≤ 10 ^ k := Nat.pos_pow_of_pos k (by omega)
                omega
            _ ≤ n := hl
        have : n / 10 ≠ 0 := by
          have : 1 ≤ n / 10 := (Nat.le_div_iff_mul_le (by omega)).2 (by omega)
          omega
        exact this h0
      have hdl : 10 ^ k ≤ n / 10 := (Nat.le_div_iff_mul_le (by omega)).2 (by omega)
      have hdu : n / 10 < 10 ^ (k + 1) := by
        rw [Nat.div_lt_iff_lt_mul (by omega)]
        omega
      show natToDigitsAux (f + 1) n acc = _
      rw [show natToDigitsAux (f + 1) n acc =
          if n / 10 = 0 then Nat.digitChar (n % 10) :: acc
          else natToDigitsAux f (n / 10) (Nat.digitChar (n % 10) :: acc) from rfl,
        if_neg hne,
        ih f (n / 10) (Nat.digitChar (n % 10) :: acc) (by omega) hdl hdu,
        natDigits_snoc (k + 1) n hu, List.append_assoc, List.singleton_append]

theorem jsNatToString_data (k n : Nat) (hl : 10 ^ k ≤ n) (hu : n < 10 ^ (k + 1)) :
    (jsNatToString n).data = natDigits (k + 1) n := by
  have hk : k < n + 1 := by
    have h1 : k < 10 ^ k := Nat.lt_pow_self (by omega) k
    omega
  show natToDigitsAux (n + 1) n [] = natDigits (k + 1) n
  rw [natToDigitsAux_eq k (n + 1) n [] hk hl hu, List.append_nil]

theorem jsPadStart2_two_digits : ∀ m, m < 100 → 1 ≤ m →
    (jsPadStart2 (jsNatToString m)).data = natDigits 2 m := by decide

theorem charListLtb_cons_same (c : Char) (as bs : List Char) :
    charListLtb (c :: as) (c :: bs) = charListLtb as bs := by
  show (if c < c then true else if c < c then false else charListLtb as bs) = _
  simp [lt_irrefl]

/-- The rendered `YYYY-MM-DD` string, as a character list: four year
digits, a dash, two zero-padded month digits, a dash, two zero-padded day
digits. -/
theorem dateStr_data (y m d : Nat) (hy1 : 1000 ≤ y) (hy2 : y < 10000)
    (hm : m + 1 < 100) (hd1 : 1 ≤ d) (hd : d < 100) :
    (dateStr y m d).data =
      natDigits 4 y ++ '-' :: (natDigits 2 (m + 1) ++ '-' :: natDigits 2 d) := by
  have hp3 : (10:Nat) ^ 3 = 1000 := by norm_num
  have hp4 : (10:Nat) ^ 4 = 10000 := by norm_num
  have hy : (jsNatToString y).data = natDigits 4 y :=
    jsNatToString_data 3 y (by omega) (by omega)
  have hmm : (jsPadStart2 (jsNatToString (m + 1))).data = natDigits 2 (m + 1) :=
    jsPadStart2_two_digits (m + 1) hm (by omega)
  have hdd : (jsPadStart2 (jsNatToString d)).data = natDigits 2 d :=
    jsPadStart2_two_digits d hd hd1
  show (jsNatToString y ++ "-" ++ jsPadStart2 (jsNatToString (m + 1)) ++ "-" ++
      jsPadStart2 (jsNatToString d)).data = _
  simp only [String.data_append, hy, hmm, hdd]
  simp [List.append_assoc]

/-- Dashes compare equal, so the string comparison of two rendered dates
reduces to the field-by-field numeric comparison. -/
theorem dateStr_ltb_iff (y1 m1 d1 y2 m2 d2 : Nat)
    (hy1l : 1000 ≤ y1) (hy1u : y1 ≤ 9999) (hm1 : m1 < 12)
    (hd1l : 1 ≤ d1) (hd1u : d1 ≤ 31)
    (hy2l : 1000 ≤ y2) (hy2u : y2 ≤ 9999) (hm2 : m2 < 12)
    (hd2l : 1 ≤ d2) (hd2u : d2 ≤ 31) :
    jsStrLtb (dateStr y1 m1 d1) (dateStr y2 m2 d2) = true ↔
      (y1 < y2 ∨ (y1 = y2 ∧ (m1 < m2 ∨ (m1 = m2 ∧ d1 < d2)))) := by
  have hp2 : (10:Nat) ^ 2 = 100 := by norm_num
  have hp4 : (10:Nat) ^ 4 = 10000 := by norm_num
  have hdata1 := dateStr_data y1 m1 d1 hy1l (by omega) (by omega) hd1l (by omega)
  have hdata2 := dateStr_data y2 m2 d2 hy2l (by omega) (by omega) hd2l (by omega)
  show charListLtb (dateStr y1 m1 d1).data (dateStr y2 m2 d2).data = true ↔ _
  rw [hdata1, hdata2,
    charListLtb_append_iff _ _ _ _ (by rw [natDigits_length, natDigits_length]),
    charListLtb_cons_same,
    charListLtb_append_iff _ _ _ _ (by rw [natDigits_length, natDigits_length]),
    charListLtb_cons_same,
    natDigits_ltb_iff 4 y1 y2 (by omega) (by omega),
    natDigits_inj_iff 4 y1 y2 (by omega) (by omega),
    natDigits_ltb_iff 2 (m1 + 1) (m2 + 1) (by omega) (by omega),
    natDigits_inj_iff 2 (m1 + 1) (m2 + 1) (by omega) (by omega),
    natDigits_ltb_iff 2 d1 d2 (by omega) (by omega)]
  omega

theorem daysInMonth_bounds (year month : Nat) :
    28 ≤ daysInMonth year month ∧ daysInMonth year month ≤ 31 := by
  unfold daysInMonth
  split
  · split <;> omega
  · split <;> omega

theorem jsStrLeb_iff_not_ltb (a b : String) :
    jsStrLeb a b = true ↔ ¬ (jsStrLtb b a = true) := by
  unfold jsStrLeb
  rcases h : jsStrLtb b a <;> simp

/-- C8: on the zero-padded `YYYY-MM-DD` strings the store renders (4-digit
years, calendar-valid month and day), the string comparison used by the
summary agrees with chronological comparison — strictly and inclusively —
and consequently the inclusive string-bound filter of the monthly
aggregation accepts a rendered date exactly when it lies in the queried
month. -/
theorem dateStr_lex_agrees_chrono (y1 m1 d1 y2 m2 d2 : Nat)
    (hy1l : 1000 ≤ y1) (hy1u : y1 ≤ 9999) (hm1 : m1 < 12)
    (hd1l : 1 ≤ d1) (hd1u : d1 ≤ daysInMonth y1 m1)
    (hy2l : 1000 ≤ y2) (hy2u : y2 ≤ 9999) (hm2 : m2 < 12)
    (hd2l : 1 ≤ d2) (hd2u : d2 ≤ daysInMonth y2 m2) :
    (jsStrLtb (dateStr y1 m1 d1) (dateStr y2 m2 d2) = true ↔
      dateTripleLt y1 m1 d1 y2 m2 d2) ∧
    (jsStrLeb (dateStr y1 m1 d1) (dateStr y2 m2 d2) = true ↔
      dateTripleLe y1 m1 d1 y2 m2 d2) ∧
    ((jsStrLeb (dateStr y1 m1 1) (dateStr y2 m2 d2) = true ∧
      jsStrLeb (dateStr y2 m2 d2) (dateStr y1 m1 (daysInMonth y1 m1)) = true) ↔
      (y2 = y1 ∧ m2 = m1)) := by
  have hb1 := daysInMonth_bounds y1 m1
  have hb2 := daysInMonth_bounds y2 m2
  have h31a : d1 ≤ 31 := by omega
  have h31b : d2 ≤ 31 := by omega
  have hlt12 := dateStr_ltb_iff y1 m1 d1 y2 m2 d2
    hy1l hy1u hm1 hd1l h31a hy2l hy2u hm2 hd2l h31b
  have hlt21 := dateStr_ltb_iff y2 m2 d2 y1 m1 d1
    hy2l hy2u hm2 hd2l h31b hy1l hy1u hm1 hd1l h31a
  refine ⟨?_, ?_, ?_⟩
  · rw [hlt12]
    unfold dateTripleLt
    omega
  · rw [jsStrLeb_iff_not_ltb, hlt21]
    unfold dateTripleLe dateTripleLt
    omega
  · rw [jsStrLeb_iff_not_ltb, jsStrLeb_iff_not_ltb,
      dateStr_ltb_iff y2 m2 d2 y1 m1 1
        hy2l hy2u hm2 hd2l h31b hy1l hy1u hm1 (by omega) (by omega),
      dateStr_ltb_iff y1 m1 (daysInMonth y1 m1) y2 m2 d2
        hy1l hy1u hm1 (by omega) (by omega) hy2l hy2u hm2 hd2l h31b]
    constructor
    · intro h
      omega
    · rintro ⟨rfl, rfl⟩
      omega

/-- C8 witness: 2024-01-31 against 2024-02-01 — chronologically and
lexicographically the January date comes first, and the February date
falls outside the January window. -/
theorem dateStr_lex_agrees_chrono_witness :
    (1000 ≤ 2024 ∧ 2024 ≤ 9999 ∧ 0 < 12 ∧ 1 ≤ 31 ∧ 31 ≤ daysInMonth 2024 0 ∧
      1 < 12 ∧ 1 ≤ 1 ∧ 1 ≤ daysInMonth 2024 1) ∧
    ((jsStrLtb (dateStr 2024 0 31) (dateStr 2024 1 1) = true ↔
        dateTripleLt 2024 0 31 2024 1 1) ∧
     (jsStrLeb (dateStr 2024 0 31) (dateStr 2024 1 1) = true ↔
        dateTripleLe 2024 0 31 2024 1 1) ∧
     ((jsStrLeb (dateStr 2024 0 1) (dateStr 2024 1 1) = true ∧
        jsStrLeb (dateStr 2024 1 1) (dateStr 2024 0 (daysInMonth 2024 0)) = true) ↔
        (2024 = 2024 ∧ 1 = 0))) :=
  ⟨⟨by decide, by decide, by decide, by decide, by decide, by decide, by decide, by decide⟩,
   dateStr_lex_agrees_chrono 2024 0 31 2024 1 1
     (by decide) (by decide) (by decide) (by decide) (by decide)
     (by decide) (by decide) (by decide) (by decide) (by decide)⟩
